import Mathlib

/-!
Verification of the expense-tracker frontend's core client logic:
the pagination window renderer, the session/authorization gate,
the paginated-list load/delete controllers, the report view's filter
wiring, the report service's query construction, and the pie/bar chart
generators. Each definition is a shallow embedding of the corresponding
TypeScript function; JavaScript numbers are modelled as exact rationals
where arithmetic matters, and JavaScript truthiness of optional strings
is modelled explicitly.
-/

namespace ExpenseTracker

/-! Section: Pagination window renderer (`renderPageNumbers`) -/

/-- An entry of the rendered pagination row: a page button (0-based page
index) or an ellipsis separator. -/
inductive PageItem
  | page (i : Nat)
  | ellipsis
deriving DecidableEq, Repr

/-- Shallow embedding of `renderPageNumbers` from `UserExpenseManagement`
(the same logic is repeated in the other management screens). The JS
loops `for (let i = a; i < b; i++)` / `for (let i = a; i <= b; i++)`
become `List.range` / `List.range'` segments. -/
def renderPageNumbers (totalPages currentPage : Nat) : List PageItem :=
  if totalPages ≤ 5 then
    (List.range totalPages).map PageItem.page
  else if currentPage < 3 then
    (List.range 4).map PageItem.page
      ++ [PageItem.ellipsis, PageItem.page (totalPages - 1)]
  else if totalPages - 3 ≤ currentPage then
    PageItem.page 0 :: PageItem.ellipsis
      :: (List.range' (totalPages - 4) 4).map PageItem.page
  else
    PageItem.page 0 :: PageItem.ellipsis
      :: (List.range' (currentPage - 1) 3).map PageItem.page
      ++ [PageItem.ellipsis, PageItem.page (totalPages - 1)]

example : renderPageNumbers 3 1 = [.page 0, .page 1, .page 2] := by decide

example : renderPageNumbers 10 0 =
    [.page 0, .page 1, .page 2, .page 3, .ellipsis, .page 9] := by decide

example : renderPageNumbers 10 9 =
    [.page 0, .ellipsis, .page 6, .page 7, .page 8, .page 9] := by decide

example : renderPageNumbers 10 5 =
    [.page 0, .ellipsis, .page 4, .page 5, .page 6, .ellipsis, .page 9] := by
  decide

/-- C1: the pagination window renderer produces exactly the four windows
described in the spec: all pages and no ellipsis for `totalPages ≤ 5`;
pages 0..3, one ellipsis, the last page for `currentPage < 3`; the first
page, one ellipsis, the last four pages for
`currentPage ≥ totalPages - 3`; and otherwise the first page, an
ellipsis, the three pages centred on `currentPage`, an ellipsis, and the
last page. -/
theorem renderPageNumbers_window (tp cp : Nat) (hcp : cp < tp) :
    (tp ≤ 5 →
      renderPageNumbers tp cp = (List.range tp).map PageItem.page ∧
      (renderPageNumbers tp cp).length = tp ∧
      PageItem.ellipsis ∉ renderPageNumbers tp cp) ∧
    (5 < tp → cp < 3 →
      renderPageNumbers tp cp =
        [.page 0, .page 1, .page 2, .page 3, .ellipsis, .page (tp - 1)]) ∧
    (5 < tp → tp - 3 ≤ cp →
      renderPageNumbers tp cp =
        [.page 0, .ellipsis,
         .page (tp - 4), .page (tp - 3), .page (tp - 2), .page (tp - 1)]) ∧
    (5 < tp → 3 ≤ cp → cp < tp - 3 →
      renderPageNumbers tp cp =
        [.page 0, .ellipsis, .page (cp - 1), .page cp, .page (cp + 1),
         .ellipsis, .page (tp - 1)]) := by
  refine ⟨?_, ?_, ?_, ?_⟩
  · intro h5
    have hdef : renderPageNumbers tp cp = (List.range tp).map PageItem.page := by
      unfold renderPageNumbers
      rw [if_pos h5]
    refine ⟨hdef, ?_, ?_⟩
    · rw [hdef]; simp
    · rw [hdef]
      intro hmem
      rcases List.mem_map.mp hmem with ⟨i, _, hi⟩
      exact PageItem.noConfusion hi
  · intro h5 h3
    unfold renderPageNumbers
    rw [if_neg (by omega), if_pos h3]
    rfl
  · intro h5 hge
    unfold renderPageNumbers
    rw [if_neg (by omega), if_neg (by omega), if_pos hge]
    have h4 : List.range' (tp - 4) 4 = [tp - 4, tp - 3, tp - 2, tp - 1] := by
      simp only [List.range', List.cons.injEq, and_true, true_and]
      omega
    rw [h4]
    rfl
  · intro h5 h3 hlt
    unfold renderPageNumbers
    rw [if_neg (by omega), if_neg (by omega), if_neg (by omega)]
    have h4 : List.range' (cp - 1) 3 = [cp - 1, cp, cp + 1] := by
      simp only [List.range', List.cons.injEq, and_true, true_and]
      omega
    rw [h4]
    rfl

/-- Concrete instantiations of `renderPageNumbers_window`: the three
`totalPages = 10` windows listed in the spec plus a small-page case. -/
theorem renderPageNumbers_window_witness :
    renderPageNumbers 4 2 = (List.range 4).map PageItem.page ∧
    renderPageNumbers 10 0 =
      [.page 0, .page 1, .page 2, .page 3, .ellipsis, .page 9] ∧
    renderPageNumbers 10 9 =
      [.page 0, .ellipsis, .page 6, .page 7, .page 8, .page 9] ∧
    renderPageNumbers 10 5 =
      [.page 0, .ellipsis, .page 4, .page 5, .page 6, .ellipsis, .page 9] :=
  ⟨((renderPageNumbers_window 4 2 (by decide)).1 (by decide)).1,
   (renderPageNumbers_window 10 0 (by decide)).2.1 (by decide) (by decide),
   (renderPageNumbers_window 10 9 (by decide)).2.2.1 (by decide) (by decide),
   (renderPageNumbers_window 10 5 (by decide)).2.2.2 (by decide) (by decide)
     (by decide)⟩

/-! Section: Session/authorization gate

The protected views all begin with the same `useEffect`:
`const token = localStorage.getItem("authToken") || sessionStorage.getItem("authToken")`,
redirect to `/login` when `!token`; the admin-only views additionally
read `user` with the same precedence, `JSON.parse` it, and redirect to
`/user/dashboard` when `userData.role?.toUpperCase() !== "ADMIN"`.
`getItem` returns a string or `null`; JS `||` and `!` treat both `null`
and the empty string as falsy, which `truthy`/`jsOrStr` model. A stored
profile is a JSON-serialised object (a non-empty string), so its
presence coincides with its truthiness; `Profile` models the parsed
object, whose `role` field may be absent. -/

/-- Model of `String.prototype.toUpperCase` for the ASCII role strings
the gate compares (`Char.toUpper` upcases exactly the ASCII letters). -/
def jsToUpper (s : String) : String :=
  String.mk (s.data.map Char.toUpper)

/-- JS truthiness of a `string | null` value: `null` and `""` are falsy. -/
def truthy : Option String → Bool
  | none => false
  | some s => s ≠ ""

/-- JS `a || b` on `string | null` values. -/
def jsOrStr (a b : Option String) : Option String :=
  if truthy a then a else b

/-- The cached user profile as parsed from the stored JSON: only the
`role` field is inspected by the gate, and it may be absent. -/
structure Profile where
  role : Option String
deriving DecidableEq, Repr

/-- Model of `localStorage.getItem("user") || sessionStorage.getItem("user")`
followed by `JSON.parse`: a stored serialised profile is a non-empty
string, so the durable slot wins whenever it is present. -/
def readProfile (lUser sUser : Option Profile) : Option Profile :=
  if lUser.isSome then lUser else sUser

/-- Outcome of a protected view's activation gate. -/
inductive GateResult
  | redirectLogin
  | redirectUserDashboard
  | proceedFetch
deriving DecidableEq, Repr

/-- Shallow embedding of the auth `useEffect` of the admin-only
management views (`UserManagement`; `CategoryManagement` is
line-for-line identical): missing token redirects to login, else a
present cached profile whose uppercased role differs from `"ADMIN"`
redirects to `/user/dashboard`, else the view fetches its data. -/
def adminGate (lTok sTok : Option String) (lUser sUser : Option Profile) :
    GateResult :=
  if truthy (jsOrStr lTok sTok) = false then
    GateResult.redirectLogin
  else
    match readProfile lUser sUser with
    | some userData =>
        if userData.role.map jsToUpper ≠ some "ADMIN" then
          GateResult.redirectUserDashboard
        else
          GateResult.proceedFetch
    | none => GateResult.proceedFetch

/-- Shallow embedding of the auth `useEffect` of the regular-user views
(`UserExpenseManagement`, `UserExpenseReport`): only token presence is
checked. -/
def userGate (lTok sTok : Option String) : GateResult :=
  if truthy (jsOrStr lTok sTok) = false then
    GateResult.redirectLogin
  else
    GateResult.proceedFetch

example : adminGate none none (some ⟨some "ADMIN"⟩) none =
    GateResult.redirectLogin := by decide
example : adminGate (some "tok") none (some ⟨some "admin"⟩) none =
    GateResult.proceedFetch := by decide
example : adminGate none (some "tok") (some ⟨some "USER"⟩) none =
    GateResult.redirectUserDashboard := by decide
example : adminGate (some "tok") none none none =
    GateResult.proceedFetch := by decide

/-- C2: when no token is stored in either the durable or the tab-scoped
slot, every protected view's gate redirects to the login route — and in
particular does not proceed to fetch the view's data — regardless of
the cached profile content in either storage. -/
theorem gate_absent_token_redirects_login
    (lTok sTok : Option String) (lUser sUser : Option Profile)
    (hl : lTok = none) (hs : sTok = none) :
    adminGate lTok sTok lUser sUser = GateResult.redirectLogin ∧
    userGate lTok sTok = GateResult.redirectLogin := by
  subst hl hs
  exact ⟨rfl, rfl⟩

/-- Witness for C2: concrete empty token slots, with an admin profile
cached — the gate still redirects to login. -/
theorem gate_absent_token_redirects_login_witness :
    adminGate none none (some ⟨some "ADMIN"⟩) (some ⟨some "ADMIN"⟩) =
      GateResult.redirectLogin ∧
    userGate none none = GateResult.redirectLogin :=
  gate_absent_token_redirects_login none none
    (some ⟨some "ADMIN"⟩) (some ⟨some "ADMIN"⟩) rfl rfl

/-- C3: with a token present, an admin-only view's gate lets a cached
profile through exactly when its role uppercases to `"ADMIN"`; any
other role value redirects to the regular-user landing route
`/user/dashboard`. -/
theorem adminGate_role_check
    (lTok sTok : Option String) (lUser sUser : Option Profile) (r : String)
    (htok : truthy (jsOrStr lTok sTok) = true)
    (hrole : readProfile lUser sUser = some ⟨some r⟩) :
    (jsToUpper r = "ADMIN" →
      adminGate lTok sTok lUser sUser = GateResult.proceedFetch) ∧
    (jsToUpper r ≠ "ADMIN" →
      adminGate lTok sTok lUser sUser = GateResult.redirectUserDashboard) := by
  unfold adminGate
  rw [htok, hrole]
  constructor
  · intro hup
    simp [hup]
  · intro hup
    simp [hup]

/-- Witness for C3: with a stored token, the lowercase role `"admin"`
is admitted and the role `"USER"` is redirected to `/user/dashboard`. -/
theorem adminGate_role_check_witness :
    adminGate (some "tok") none (some ⟨some "admin"⟩) none =
      GateResult.proceedFetch ∧
    adminGate (some "tok") none none (some ⟨some "USER"⟩) =
      GateResult.redirectUserDashboard :=
  ⟨(adminGate_role_check (some "tok") none (some ⟨some "admin"⟩) none
      "admin" (by decide) (by decide)).1 (by decide),
   (adminGate_role_check (some "tok") none none (some ⟨some "USER"⟩)
      "USER" (by decide) (by decide)).2 (by decide)⟩

/-- C4: with a token present but no cached profile in either storage,
the admin-only gate skips the role check entirely and proceeds to fetch
the view's data without any redirect. -/
theorem adminGate_missing_profile_skips_role_check
    (lTok sTok : Option String)
    (htok : truthy (jsOrStr lTok sTok) = true) :
    adminGate lTok sTok none none = GateResult.proceedFetch := by
  unfold adminGate
  rw [htok]
  rfl


/-- Witness for C4: a concrete tab-scoped token and empty profile slots
reach the data fetch with no role check. -/
theorem adminGate_missing_profile_skips_role_check_witness :
    adminGate none (some "tok") none none = GateResult.proceedFetch :=
  adminGate_missing_profile_skips_role_check none (some "tok") (by decide)

/-! Section: Paginated-list load controller (`fetchExpenses` / `fetchUsers`)

`fetchExpenses` (UserExpenseManagement) and `fetchUsers`
(UserManagement) are line-for-line identical up to the service called
and the hardcoded fallback string. The asynchronous service call is
modelled by passing its outcome explicitly; the `setX` calls become a
pure transition on the view state. Itemised records are modelled by
their id, the only field the control flow inspects. -/

/-- A list record, identified by its id (the only field the controller
logic reads). -/
structure Entity where
  id : String
deriving DecidableEq, Repr

/-- The shape of a caught error `err`: `err?.response?.data?.message`
and `err?.message`, each possibly absent. -/
structure ErrShape where
  responseDataMessage : Option String
  message : Option String
deriving DecidableEq, Repr

/-- JS `a || b` where `a` is `string | undefined` and `b` a string:
an absent or empty `a` falls through to `b`. -/
def jsStrOr (a : Option String) (b : String) : String :=
  match a with
  | some s => if s = "" then b else s
  | none => b

/-- Embedding of `err?.response?.data?.message || err?.message || fallback`. -/
def extractMessage (e : ErrShape) (fallback : String) : String :=
  jsStrOr e.responseDataMessage (jsStrOr e.message fallback)

/-- The page envelope returned by the list services; each field may be
absent (the code guards each with `|| 0` / `|| []`). -/
structure PageResponse where
  content : Option (List Entity)
  totalPages : Option Nat
  totalElements : Option Nat
deriving DecidableEq, Repr

/-- Outcome of the awaited list-service call. -/
inductive FetchOutcome
  | success (r : PageResponse)
  | failure (e : ErrShape)
deriving DecidableEq, Repr

/-- The state a paginated management screen holds for its list. -/
structure ListState where
  items : List Entity
  totalPages : Nat
  totalElements : Nat
  loading : Bool
  error : Option String
deriving DecidableEq, Repr

/-- Shallow embedding of the shared body of `fetchExpenses` /
`fetchUsers`: `setLoading(true); setError(null)`, then on success
replace `items`/`totalPages`/`totalElements` (each defaulted when the
response field is absent), on failure set `error` to the extracted
message; `finally` clears `loading` on both paths. -/
def listLoadStep (fallback : String) (s : ListState) (out : FetchOutcome) :
    ListState :=
  match out with
  | .success r =>
      { items := r.content.getD [],
        totalPages := r.totalPages.getD 0,
        totalElements := r.totalElements.getD 0,
        loading := false,
        error := none }
  | .failure e =>
      { s with
        loading := false,
        error := some (extractMessage e fallback) }

/-- Embedding of `fetchExpenses` from `UserExpenseManagement`. -/
def fetchExpensesStep (s : ListState) (out : FetchOutcome) : ListState :=
  listLoadStep "Failed to load expenses" s out

/-- Embedding of `fetchUsers` from `UserManagement`. -/
def fetchUsersStep (s : ListState) (out : FetchOutcome) : ListState :=
  listLoadStep "Failed to load users" s out

example :
    (fetchExpensesStep ⟨[⟨"a"⟩], 1, 1, false, none⟩
      (.failure ⟨none, some "boom"⟩)).error = some "boom" := by decide

example :
    (fetchExpensesStep ⟨[⟨"a"⟩], 1, 1, false, none⟩
      (.failure ⟨none, none⟩)).items = [⟨"a"⟩] := by decide

/-- C5: on a failed load, both list controllers set `error` to the
first truthy candidate among the nested `response.data.message`, the
error's own `message`, and the operation-specific fallback string,
leave the previously loaded `items` untouched, and clear `loading` on
every outcome, success or failure alike. -/
theorem listLoad_failure_behavior (s : ListState) (e : ErrShape) :
    ((fetchExpensesStep s (.failure e)).items = s.items ∧
      (fetchUsersStep s (.failure e)).items = s.items) ∧
    (∀ out : FetchOutcome,
      (fetchExpensesStep s out).loading = false ∧
      (fetchUsersStep s out).loading = false) ∧
    (truthy e.responseDataMessage = true →
      (fetchExpensesStep s (.failure e)).error = e.responseDataMessage ∧
      (fetchUsersStep s (.failure e)).error = e.responseDataMessage) ∧
    (truthy e.responseDataMessage = false → truthy e.message = true →
      (fetchExpensesStep s (.failure e)).error = e.message ∧
      (fetchUsersStep s (.failure e)).error = e.message) ∧
    (truthy e.responseDataMessage = false → truthy e.message = false →
      (fetchExpensesStep s (.failure e)).error =
        some "Failed to load expenses" ∧
      (fetchUsersStep s (.failure e)).error =
        some "Failed to load users") := by
  obtain ⟨rm, m⟩ := e
  refine ⟨⟨rfl, rfl⟩, ?_, ?_, ?_, ?_⟩
  · intro out
    cases out <;> exact ⟨rfl, rfl⟩
  · intro h
    cases rm with
    | none => simp [truthy] at h
    | some v =>
        simp only [truthy, ne_eq, decide_eq_true_eq] at h
        simp [fetchExpensesStep, fetchUsersStep, listLoadStep,
          extractMessage, jsStrOr, h]
  · intro h1 h2
    cases rm with
    | some v => simp [truthy] at h1; cases m with
      | none => simp [truthy] at h2
      | some w =>
          simp only [truthy, ne_eq, decide_eq_true_eq] at h2
          simp [fetchExpensesStep, fetchUsersStep, listLoadStep,
            extractMessage, jsStrOr, h1, h2]
    | none => cases m with
      | none => simp [truthy] at h2
      | some w =>
          simp only [truthy, ne_eq, decide_eq_true_eq] at h2
          simp [fetchExpensesStep, fetchUsersStep, listLoadStep,
            extractMessage, jsStrOr, h2]
  · intro h1 h2
    cases rm with
    | some v =>
        have hv : v = "" := by simpa [truthy] using h1
        subst hv
        cases m with
        | none => exact ⟨rfl, rfl⟩
        | some w =>
            have hw : w = "" := by simpa [truthy] using h2
            subst hw
            exact ⟨rfl, rfl⟩
    | none =>
        cases m with
        | none => exact ⟨rfl, rfl⟩
        | some w =>
            have hw : w = "" := by simpa [truthy] using h2
            subst hw
            exact ⟨rfl, rfl⟩

/-- Witness for C5: a concrete state and errors exercising all three
rungs of the message-preference ladder. -/
theorem listLoad_failure_behavior_witness :
    (fetchExpensesStep ⟨[⟨"a"⟩], 3, 21, true, none⟩
        (.failure ⟨some "nested", some "own"⟩)).error = some "nested" ∧
    (fetchExpensesStep ⟨[⟨"a"⟩], 3, 21, true, none⟩
        (.failure ⟨some "", some "own"⟩)).error = some "own" ∧
    (fetchUsersStep ⟨[⟨"a"⟩], 3, 21, true, none⟩
        (.failure ⟨none, some ""⟩)).error = some "Failed to load users" :=
  ⟨((listLoad_failure_behavior ⟨[⟨"a"⟩], 3, 21, true, none⟩
      ⟨some "nested", some "own"⟩).2.2.1 (by decide)).1,
   ((listLoad_failure_behavior ⟨[⟨"a"⟩], 3, 21, true, none⟩
      ⟨some "", some "own"⟩).2.2.2.1 (by decide) (by decide)).1,
   ((listLoad_failure_behavior ⟨[⟨"a"⟩], 3, 21, true, none⟩
      ⟨none, some ""⟩).2.2.2.2 (by decide) (by decide)).2⟩

/-! Section: Delete handlers (`handleDeleteExpense` / `handleDeleteUser` /
`handleDeleteCategory`)

Each handler first returns when nothing is selected for deletion, else
awaits the backend delete and either refetches (expense/user) or
locally filters the list (category); on a thrown error it sets the
extracted message; both branches close the confirmation dialog and
clear the selection. `fetchExpenses`/`fetchUsers` catch their own
errors, so only the delete call itself can throw inside the `try`. The
second component of the result records whether the backend delete call
was issued. -/

/-- Screen state of the expense/user management views: the list state
plus the delete-dialog state. -/
structure MgmtState where
  list : ListState
  showDeleteDialog : Bool
  toDelete : Option Entity
deriving DecidableEq, Repr

/-- Outcome of `await Service.delete…(id)` followed (on success) by the
refetch: either the delete resolved and the refetch saw `refetch`, or
the delete threw `e`. -/
inductive DeleteOutcome
  | resolved (refetch : FetchOutcome)
  | thrown (e : ErrShape)
deriving DecidableEq, Repr

/-- Embedding of `handleDeleteExpense` from `UserExpenseManagement`. -/
def handleDeleteExpense (s : MgmtState) (out : DeleteOutcome) :
    MgmtState × Bool :=
  match s.toDelete with
  | none => (s, false)
  | some _ =>
      match out with
      | .resolved refetch =>
          ({ list := fetchExpensesStep s.list refetch,
             showDeleteDialog := false, toDelete := none }, true)
      | .thrown e =>
          ({ list := { s.list with
               error := some (extractMessage e "Failed to delete expense") },
             showDeleteDialog := false, toDelete := none }, true)

/-- Embedding of `handleDeleteUser` from `UserManagement`. -/
def handleDeleteUser (s : MgmtState) (out : DeleteOutcome) :
    MgmtState × Bool :=
  match s.toDelete with
  | none => (s, false)
  | some _ =>
      match out with
      | .resolved refetch =>
          ({ list := fetchUsersStep s.list refetch,
             showDeleteDialog := false, toDelete := none }, true)
      | .thrown e =>
          ({ list := { s.list with
               error := some (extractMessage e "Failed to delete user") },
             showDeleteDialog := false, toDelete := none }, true)

/-- Screen state of the category management view. `totalElements` is an
integer because the success path runs `setTotalElements(prev => prev - 1)`
with no lower bound. -/
structure CategoryState where
  categories : List Entity
  totalElements : Int
  loading : Bool
  error : Option String
  showDeleteDialog : Bool
  categoryToDelete : Option Entity
deriving DecidableEq, Repr

/-- Outcome of `await CategoryService.deleteCategory(id)`. -/
inductive CatDeleteOutcome
  | resolved
  | thrown (e : ErrShape)
deriving DecidableEq, Repr

/-- Embedding of `handleDeleteCategory` from `CategoryManagement`: on success it
locally filters the deleted id out and decrements `totalElements`
instead of refetching. -/
def handleDeleteCategory (s : CategoryState) (out : CatDeleteOutcome) :
    CategoryState × Bool :=
  match s.categoryToDelete with
  | none => (s, false)
  | some target =>
      match out with
      | .resolved =>
          ({ s with
             categories := s.categories.filter (fun c => c.id ≠ target.id),
             totalElements := s.totalElements - 1,
             showDeleteDialog := false, categoryToDelete := none }, true)
      | .thrown e =>
          ({ s with
             error := some (extractMessage e "Failed to delete category"),
             showDeleteDialog := false, categoryToDelete := none }, true)

/-- C10: confirming a delete dialog while nothing is selected for
deletion is a no-op on all three management screens: no backend delete
call is issued (second component `false`) and the whole screen state —
items, totals, error, dialog flags — is returned unchanged. -/
theorem deleteHandlers_nothing_selected
    (sE sU : MgmtState) (sC : CategoryState)
    (outE outU : DeleteOutcome) (outC : CatDeleteOutcome)
    (hE : sE.toDelete = none) (hU : sU.toDelete = none)
    (hC : sC.categoryToDelete = none) :
    handleDeleteExpense sE outE = (sE, false) ∧
    handleDeleteUser sU outU = (sU, false) ∧
    handleDeleteCategory sC outC = (sC, false) := by
  refine ⟨?_, ?_, ?_⟩
  · unfold handleDeleteExpense; rw [hE]
  · unfold handleDeleteUser; rw [hU]
  · unfold handleDeleteCategory; rw [hC]

/-- Witness for C10: concrete screen states with no selection survive a
confirm unchanged on all three screens. -/
theorem deleteHandlers_nothing_selected_witness :
    handleDeleteExpense ⟨⟨[⟨"e1"⟩], 1, 1, false, none⟩, true, none⟩
        (.resolved (.success ⟨some [], some 0, some 0⟩)) =
      (⟨⟨[⟨"e1"⟩], 1, 1, false, none⟩, true, none⟩, false) ∧
    handleDeleteUser ⟨⟨[⟨"u1"⟩], 1, 1, false, none⟩, false, none⟩
        (.thrown ⟨none, none⟩) =
      (⟨⟨[⟨"u1"⟩], 1, 1, false, none⟩, false, none⟩, false) ∧
    handleDeleteCategory ⟨[⟨"c1"⟩], 1, false, none, true, none⟩ .resolved =
      (⟨[⟨"c1"⟩], 1, false, none, true, none⟩, false) :=
  deleteHandlers_nothing_selected
    ⟨⟨[⟨"e1"⟩], 1, 1, false, none⟩, true, none⟩
    ⟨⟨[⟨"u1"⟩], 1, 1, false, none⟩, false, none⟩
    ⟨[⟨"c1"⟩], 1, false, none, true, none⟩
    (.resolved (.success ⟨some [], some 0, some 0⟩))
    (.thrown ⟨none, none⟩) .resolved rfl rfl rfl

/-! Section: Report service query construction (`ReportService.getSummary`) -/

/-- The optional report filters accepted by `getSummary`. -/
structure SummaryFilters where
  categoryId : Option String
  month : Option String
deriving DecidableEq, Repr

/-- Shallow embedding of the `params` object built by
`ReportService.getSummary`: a key is added only when the corresponding
filter is truthy (`if (filters?.categoryId)` / `if (filters?.month)`),
`filters` itself being optional. The record's insertion order is
`categoryId` then `month`. -/
def getSummaryParams (filters : Option SummaryFilters) : List (String × String) :=
  (match filters with
   | some f =>
       match f.categoryId with
       | some c => if c ≠ "" then [("categoryId", c)] else []
       | none => []
   | none => []) ++
  (match filters with
   | some f =>
       match f.month with
       | some m => if m ≠ "" then [("month", m)] else []
       | none => []
   | none => [])

example : getSummaryParams (some ⟨some "c7", some "2024-03"⟩) =
    [("categoryId", "c7"), ("month", "2024-03")] := by decide
example : getSummaryParams (some ⟨some "", none⟩) = [] := by decide
example : getSummaryParams none = [] := by decide

/-- C8: an unset (or empty-string) `categoryId` or `month` filter is
omitted entirely from the query parameters of `getSummary`, and no
parameter is ever sent with an empty-string value. -/
theorem getSummaryParams_omits_unset (filters : Option SummaryFilters) :
    (∀ f, filters = some f →
      ((f.categoryId = none ∨ f.categoryId = some "") →
        ∀ v, ("categoryId", v) ∉ getSummaryParams filters) ∧
      ((f.month = none ∨ f.month = some "") →
        ∀ v, ("month", v) ∉ getSummaryParams filters)) ∧
    (filters = none → getSummaryParams filters = []) ∧
    (∀ k v, (k, v) ∈ getSummaryParams filters → v ≠ "") := by
  refine ⟨?_, ?_, ?_⟩
  · rintro ⟨c, m⟩ rfl
    constructor
    · rintro (h | h) v hmem <;> subst h <;>
      · simp only [getSummaryParams, List.mem_append] at hmem
        rcases hmem with h' | h' <;>
          [skip; cases m] <;> simp_all
    · rintro (h | h) v hmem <;> subst h <;>
      · simp only [getSummaryParams, List.mem_append] at hmem
        rcases hmem with h' | h' <;>
          [cases c; skip] <;> simp_all
  · rintro rfl; rfl
  · intro k v hmem
    match filters with
    | none => simp [getSummaryParams] at hmem
    | some ⟨c, m⟩ =>
        simp only [getSummaryParams, List.mem_append] at hmem
        rcases hmem with h | h
        · cases c with
          | none => simp at h
          | some cv =>
              by_cases hc : cv = "" <;> simp [hc] at h
              rcases h with ⟨-, rfl⟩; exact hc
        · cases m with
          | none => simp at h
          | some mv =>
              by_cases hm : mv = "" <;> simp [hm] at h
              rcases h with ⟨-, rfl⟩; exact hm

/-- Witness for C8: with `categoryId` set to the empty string and
`month` unset, no parameter at all is sent. -/
theorem getSummaryParams_omits_unset_witness :
    (∀ v, ("categoryId", v) ∉ getSummaryParams (some ⟨some "", none⟩)) ∧
    (∀ v, ("month", v) ∉ getSummaryParams (some ⟨some "", none⟩)) :=
  ⟨((getSummaryParams_omits_unset (some ⟨some "", none⟩)).1
      ⟨some "", none⟩ rfl).1 (Or.inr rfl),
   ((getSummaryParams_omits_unset (some ⟨some "", none⟩)).1
      ⟨some "", none⟩ rfl).2 (Or.inl rfl)⟩

/-! Section: Report view filter wiring (`UserExpenseReport`)

The two filter selects only call `setSelectedCategoryId` /
`setSelectedMonth`; the "Apply Filters" button calls `fetchSummary()`
directly; "Clear Filters" resets both selections; and a `useEffect`
with dependencies `[selectedCategoryId, selectedMonth]` calls
`fetchSummary()` when both are empty and a summary has been loaded.
React's semantics are modelled explicitly: an event handler's state
updates are batched into one re-render, after which the effect runs
exactly once if its dependency tuple changed (`Object.is` per entry)
and not at all otherwise. A step returns the new state together with
the list of `getSummary` filter objects fetched by the step, in order. -/

/-- The filter-relevant state of `UserExpenseReport`: the two selected
filter values (empty string = unset) and whether `summary` is non-null. -/
structure ReportState where
  selectedCategoryId : String
  selectedMonth : String
  summaryLoaded : Bool
deriving DecidableEq, Repr

/-- The filter object `fetchSummary` builds from the current state:
each key is added only when the selection is truthy. -/
def filtersOf (s : ReportState) : SummaryFilters :=
  { categoryId :=
      if s.selectedCategoryId ≠ "" then some s.selectedCategoryId else none,
    month := if s.selectedMonth ≠ "" then some s.selectedMonth else none }

/-- Body of the filter-clear `useEffect`: fetch iff both selections are
empty and a summary is already loaded. -/
def clearEffect (s : ReportState) : List SummaryFilters :=
  if s.selectedCategoryId = "" ∧ s.selectedMonth = "" ∧
      s.summaryLoaded = true then
    [filtersOf s]
  else
    []

/-- The user interactions that touch the filters. -/
inductive ReportEvent
  | changeCategory (v : String)
  | changeMonth (v : String)
  | applyFilters
  | clearFilters
deriving DecidableEq, Repr

/-- One interaction step of the report view: the resulting state and
the `getSummary` calls it issues. The filter-clear effect runs exactly
once per step, and only when its dependency pair changed. -/
def reportStep (s : ReportState) : ReportEvent → ReportState × List SummaryFilters
  | .changeCategory v =>
      ({ s with selectedCategoryId := v },
       if v = s.selectedCategoryId then []
       else clearEffect { s with selectedCategoryId := v })
  | .changeMonth v =>
      ({ s with selectedMonth := v },
       if v = s.selectedMonth then []
       else clearEffect { s with selectedMonth := v })
  | .applyFilters => (s, [filtersOf s])
  | .clearFilters =>
      ({ s with selectedCategoryId := "", selectedMonth := "" },
       if s.selectedCategoryId = "" ∧ s.selectedMonth = "" then []
       else clearEffect { s with selectedCategoryId := "", selectedMonth := "" })

example : (reportStep ⟨"", "", true⟩ (.changeCategory "c1")).2 = [] := by
  decide
example : (reportStep ⟨"c1", "2024-03", true⟩ .clearFilters).2 =
    [⟨none, none⟩] := by decide
example : (reportStep ⟨"c1", "", true⟩ .applyFilters).2 =
    [⟨some "c1", none⟩] := by decide

/-- C6: in the report view, a filter change that does not leave both
filters empty issues no fetch; the explicit Apply issues exactly one
fetch with the current filters; and clearing the filters after a
summary has been loaded — when at least one of them was set — issues
exactly one fetch with the empty filter object. -/
theorem reportStep_fetch_discipline (s : ReportState) (v : String) :
    (¬(v = "" ∧ s.selectedMonth = "") →
      (reportStep s (.changeCategory v)).2 = []) ∧
    (¬(s.selectedCategoryId = "" ∧ v = "") →
      (reportStep s (.changeMonth v)).2 = []) ∧
    ((reportStep s .applyFilters).2 = [filtersOf s]) ∧
    (¬(s.selectedCategoryId = "" ∧ s.selectedMonth = "") →
      s.summaryLoaded = true →
      (reportStep s .clearFilters).2 = [SummaryFilters.mk none none]) := by
  refine ⟨?_, ?_, rfl, ?_⟩
  · intro h
    by_cases hv : v = s.selectedCategoryId
    · simp [reportStep, hv]
    · simp only [reportStep, if_neg hv, clearEffect]
      rw [if_neg]
      intro ⟨h1, h2, _⟩
      exact h ⟨h1, h2⟩
  · intro h
    by_cases hv : v = s.selectedMonth
    · simp [reportStep, hv]
    · simp only [reportStep, if_neg hv, clearEffect]
      rw [if_neg]
      intro ⟨h1, h2, _⟩
      exact h ⟨h1, h2⟩
  · intro h hsum
    simp [reportStep, clearEffect, filtersOf, h, hsum]

/-- Witness for C6: with a category filter set and a summary loaded,
changing the month issues no fetch, Apply issues one fetch with that
filter, and Clear issues exactly one fetch with empty filters. -/
theorem reportStep_fetch_discipline_witness :
    (reportStep ⟨"c1", "", true⟩ (.changeMonth "2024-03")).2 = [] ∧
    (reportStep ⟨"c1", "", true⟩ .applyFilters).2 = [⟨some "c1", none⟩] ∧
    (reportStep ⟨"c1", "", true⟩ .clearFilters).2 = [⟨none, none⟩] :=
  ⟨(reportStep_fetch_discipline ⟨"c1", "", true⟩ "2024-03").2.1
      (by decide),
   (reportStep_fetch_discipline ⟨"c1", "", true⟩ "2024-03").2.2.1,
   (reportStep_fetch_discipline ⟨"c1", "", true⟩ "2024-03").2.2.2
      (by decide) rfl⟩

/-! Section: Pie-chart generator (`generatePieChart`)

`generatePieChart` maps the category breakdown to SVG elements while
threading a mutable `currentAngle` initialised to 0. A slice becomes a
`<circle>` when `categories.length === 1 || angle >= 359.9`; that
branch returns before `currentAngle = endAngle`, so a full-circle slice
does not advance the cumulative angle. Otherwise the slice becomes an
arc `<path>` from `currentAngle` to `currentAngle + angle`. JS numbers
are modelled as exact rationals. -/

/-- One entry of the summary's category breakdown. -/
structure CategoryBreakdown where
  categoryName : String
  totalAmount : ℚ
  count : Nat
  percentage : ℚ
deriving DecidableEq, Repr

/-- Embedding of `const angle = (category.percentage / 100) * 360`. -/
def sliceAngle (c : CategoryBreakdown) : ℚ :=
  c.percentage / 100 * 360

/-- The SVG element emitted for one slice: a full circle, or an arc
path with its start and end angles. -/
inductive Slice
  | circle
  | arc (startAngle endAngle : ℚ)
deriving DecidableEq, Repr

/-- The `categories.map` body of `generatePieChart`, with the mutable
`currentAngle` made an explicit accumulator; `single` is the constant
`categories.length === 1`. -/
def pieGo (single : Bool) : ℚ → List CategoryBreakdown → List Slice
  | _, [] => []
  | cur, c :: rest =>
      if single = true ∨ 3599 / 10 ≤ sliceAngle c then
        Slice.circle :: pieGo single cur rest
      else
        Slice.arc cur (cur + sliceAngle c)
          :: pieGo single (cur + sliceAngle c) rest

/-- Embedding of `generatePieChart`, restricted to the slice elements it renders (the
legend and colour assignment are presentation only). -/
def generatePieChart (cats : List CategoryBreakdown) : List Slice :=
  pieGo (cats.length == 1) 0 cats

/-- The accumulated start angle contributed by a prefix of the
breakdown: only slices rendered as arcs (angle < 359.9) advance
`currentAngle`. -/
def arcAngleSum (cats : List CategoryBreakdown) : ℚ :=
  ((cats.filter (fun c => sliceAngle c < 3599 / 10)).map sliceAngle).sum

example : generatePieChart [⟨"A", 10, 1, 100⟩] = [.circle] := by
  norm_num [generatePieChart, pieGo, sliceAngle]
example : generatePieChart [⟨"A", 10, 1, 50⟩, ⟨"B", 10, 1, 50⟩] =
    [.arc 0 180, .arc 180 360] := by
  norm_num [generatePieChart, pieGo, sliceAngle]

theorem pieGo_length (single : Bool) :
    ∀ (cur : ℚ) (l : List CategoryBreakdown),
      (pieGo single cur l).length = l.length := by
  intro cur l
  induction l generalizing cur with
  | nil => rfl
  | cons c rest ih =>
      unfold pieGo
      split
      · simp [ih]
      · simp [ih]

theorem pieGo_get_false :
    ∀ (l : List CategoryBreakdown) (cur : ℚ) (i : Nat) (hi : i < l.length),
      (pieGo false cur l).get? i =
        some (if 3599 / 10 ≤ sliceAngle (l.get ⟨i, hi⟩) then
          Slice.circle
        else
          Slice.arc (cur + arcAngleSum (l.take i))
            (cur + arcAngleSum (l.take i) + sliceAngle (l.get ⟨i, hi⟩))) := by
  intro l
  induction l with
  | nil => intro cur i hi; exact absurd hi (by simp)
  | cons c rest ih =>
      intro cur i hi
      unfold pieGo
      by_cases hc : 3599 / 10 ≤ sliceAngle c
      · rw [if_pos (Or.inr hc)]
        cases i with
        | zero =>
            simp only [List.get?_cons_zero, List.get]
            rw [if_pos hc]
        | succ j =>
            have hj : j < rest.length := by
              simpa using Nat.lt_of_succ_lt_succ hi
            simp only [List.get?_cons_succ, List.get]
            rw [ih cur j hj]
            have htake : arcAngleSum ((c :: rest).take (j + 1)) =
                arcAngleSum (rest.take j) := by
              simp only [List.take_succ_cons, arcAngleSum, List.filter_cons]
              rw [if_neg (by simpa using not_lt.mpr hc)]
            rw [htake]
      · rw [if_neg (by
          rintro (h | h)
          · exact Bool.false_ne_true h
          · exact hc h)]
        cases i with
        | zero =>
            simp only [List.get?_cons_zero, List.get]
            rw [if_neg hc]
            simp [arcAngleSum]
        | succ j =>
            have hj : j < rest.length := by
              simpa using Nat.lt_of_succ_lt_succ hi
            simp only [List.get?_cons_succ, List.get]
            rw [ih (cur + sliceAngle c) j hj]
            have htake : arcAngleSum ((c :: rest).take (j + 1)) =
                sliceAngle c + arcAngleSum (rest.take j) := by
              simp only [List.take_succ_cons, arcAngleSum, List.filter_cons]
              rw [if_pos (by simpa using not_le.mp hc)]
              simp
            rw [htake]
            simp only [add_assoc]

theorem pieGo_single :
    ∀ (cur : ℚ) (l : List CategoryBreakdown),
      pieGo true cur l = l.map (fun _ => Slice.circle) := by
  intro cur l
  induction l generalizing cur with
  | nil => rfl
  | cons c rest ih =>
      unfold pieGo
      rw [if_pos (Or.inl rfl)]
      simp [ih]

/-- C7 counterexample: on the breakdown [99.98%, 0.02%] the first slice
is a full circle (its angle 359.928° ≥ 359.9°) and, because the circle
branch returns before `currentAngle` is advanced, the second slice is
the arc from 0° to 0.072° — not from the 359.928° that the cumulative
angle of all preceding slices would give, refuting the claim that every
arc starts at the cumulative angle of the preceding slices. -/
theorem generatePieChart_fullCircle_does_not_advance :
    (generatePieChart
        [⟨"A", 0, 0, 4999 / 50⟩, ⟨"B", 0, 0, 1 / 50⟩]).get? 1 =
      some (Slice.arc 0 (9 / 125)) ∧
    (([(⟨"A", 0, 0, 4999 / 50⟩ : CategoryBreakdown)].map sliceAngle).sum =
      44991 / 125) ∧
    (44991 / 125 : ℚ) ≠ 0 := by
  refine ⟨?_, ?_, by norm_num⟩
  · norm_num [generatePieChart, pieGo, sliceAngle]
  · norm_num [sliceAngle]

/-- C7 (amended): a slice of the pie-chart generator is drawn as a full
circle iff the breakdown has exactly one category or the slice's
central angle `percentage/100 * 360` is at least 359.9°; every other
slice is an arc whose start angle is the cumulative angle of the
preceding arc slices (starting at 0 — full-circle slices do not advance
the cumulative angle) and whose end angle adds the slice's own angle. -/
theorem generatePieChart_slices (cats : List CategoryBreakdown) (i : Nat)
    (hi : i < cats.length) :
    (generatePieChart cats).length = cats.length ∧
    ((generatePieChart cats).get? i = some Slice.circle ↔
      cats.length = 1 ∨ 3599 / 10 ≤ sliceAngle (cats.get ⟨i, hi⟩)) ∧
    (∀ a b, (generatePieChart cats).get? i = some (Slice.arc a b) →
      a = arcAngleSum (cats.take i) ∧
      b = a + sliceAngle (cats.get ⟨i, hi⟩)) := by
  by_cases h1 : cats.length = 1
  · have hb : (cats.length == 1) = true := by
      simpa using h1
    have hmap : generatePieChart cats = cats.map (fun _ => Slice.circle) := by
      unfold generatePieChart
      rw [hb, pieGo_single]
    have hget : (generatePieChart cats).get? i = some Slice.circle := by
      rw [hmap, List.get?_map, List.get?_eq_get hi]
      rfl
    refine ⟨by rw [hmap]; simp, ?_, ?_⟩
    · rw [hget]
      exact ⟨fun _ => Or.inl h1, fun _ => rfl⟩
    · intro a b hab
      rw [hget] at hab
      exact absurd (Option.some.inj hab) (by intro h; exact Slice.noConfusion h)
  · have hb : (cats.length == 1) = false := by
      simpa using h1
    have hgo : generatePieChart cats = pieGo false 0 cats := by
      unfold generatePieChart
      rw [hb]
    have hget := pieGo_get_false cats 0 i hi
    refine ⟨by rw [hgo, pieGo_length], ?_, ?_⟩
    · rw [hgo, hget]
      by_cases hc : 3599 / 10 ≤ sliceAngle (cats.get ⟨i, hi⟩)
      · rw [if_pos hc]
        exact ⟨fun _ => Or.inr hc, fun _ => rfl⟩
      · rw [if_neg hc]
        constructor
        · intro h
          exact absurd (Option.some.inj h) (by intro h'; exact Slice.noConfusion h')
        · rintro (h | h)
          · exact absurd h h1
          · exact absurd h hc
    · intro a b hab
      rw [hgo, hget] at hab
      by_cases hc : 3599 / 10 ≤ sliceAngle (cats.get ⟨i, hi⟩)
      · rw [if_pos hc] at hab
        exact absurd (Option.some.inj hab) (by intro h'; exact Slice.noConfusion h')
      · rw [if_neg hc] at hab
        have harc := Option.some.inj hab
        have ha : a = 0 + arcAngleSum (cats.take i) := by
          cases harc; rfl
        have hb2 : b = 0 + arcAngleSum (cats.take i) +
            sliceAngle (cats.get ⟨i, hi⟩) := by
          cases harc; rfl
        constructor
        · rw [ha, zero_add]
        · rw [hb2, ha]

/-- Witness for the amended C7: on two equal halves the generator emits
two slices and the second one is not a circle (its angle is 180° and
there are two categories). -/
theorem generatePieChart_slices_witness :
    (generatePieChart [⟨"A", 10, 1, 50⟩, ⟨"B", 10, 1, 50⟩]).length = 2 ∧
    (generatePieChart [⟨"A", 10, 1, 50⟩, ⟨"B", 10, 1, 50⟩]).get? 1 ≠
      some Slice.circle := by
  have h := generatePieChart_slices
    [⟨"A", 10, 1, 50⟩, ⟨"B", 10, 1, 50⟩] 1 (by decide)
  refine ⟨h.1, fun hc => ?_⟩
  rcases h.2.1.mp hc with h1 | h2
  · exact absurd h1 (by decide)
  · norm_num [sliceAngle] at h2

/-! Section: Bar-chart generator (`generateBarChart`)

`generateBarChart` returns `null` on an empty breakdown, else computes
`maxAmount = Math.max(...monthlyData.map(m => m.totalAmount))` and for
each month a bar of height
`(month.totalAmount / maxAmount) * barChartHeight`, where
`barChartHeight = chartHeight - chartTopPadding = 250 - 20`. There is
no guard against `maxAmount` being zero. -/

/-- One entry of the summary's monthly breakdown. -/
structure MonthlyBreakdown where
  month : String
  totalAmount : ℚ
  count : Nat
deriving DecidableEq, Repr

/-- Embedding of `const chartHeight = 250`. -/
def chartHeight : ℚ := 250

/-- Embedding of `const chartTopPadding = 20`. -/
def chartTopPadding : ℚ := 20

/-- Embedding of `const barChartHeight = chartHeight - chartTopPadding`. -/
def barChartHeight : ℚ := chartHeight - chartTopPadding

/-- Embedding of `Math.max(...monthlyData.map(m => m.totalAmount))` for the
non-empty list the generator reaches (on `[]` it has already returned
`null`; the 0 in that branch is arbitrary). -/
def maxAmount : List MonthlyBreakdown → ℚ
  | [] => 0
  | m :: rest => rest.foldl (fun acc x => max acc x.totalAmount) m.totalAmount

/-- Embedding of `generateBarChart`, restricted to the bar heights it renders:
`none` models the early `return null` on an empty breakdown. -/
def generateBarChart (l : List MonthlyBreakdown) : Option (List ℚ) :=
  match l with
  | [] => none
  | _ :: _ =>
      some (l.map (fun m => m.totalAmount / maxAmount l * barChartHeight))

example : generateBarChart [] = none := by decide
example : generateBarChart [⟨"2024-01", 10, 2⟩, ⟨"2024-02", 5, 1⟩] =
    some [230, 115] := by
  norm_num [generateBarChart, maxAmount, barChartHeight, chartHeight,
    chartTopPadding]

theorem foldl_max_init_le (rest : List MonthlyBreakdown) :
    ∀ init : ℚ,
      init ≤ rest.foldl (fun acc x => max acc x.totalAmount) init := by
  induction rest with
  | nil => intro init; exact le_refl init
  | cons x xs ih =>
      intro init
      exact le_trans (le_max_left init x.totalAmount) (ih (max init x.totalAmount))

theorem mem_le_foldl_max (rest : List MonthlyBreakdown) :
    ∀ (init : ℚ) (x : MonthlyBreakdown), x ∈ rest →
      x.totalAmount ≤ rest.foldl (fun acc x => max acc x.totalAmount) init := by
  induction rest with
  | nil => intro _ x hx; exact absurd hx (List.not_mem_nil x)
  | cons y ys ih =>
      intro init x hx
      rcases List.mem_cons.mp hx with rfl | hx'
      · exact le_trans (le_max_right init x.totalAmount)
          (foldl_max_init_le ys (max init x.totalAmount))
      · exact ih (max init y.totalAmount) x hx'

theorem le_maxAmount (l : List MonthlyBreakdown) (x : MonthlyBreakdown)
    (hx : x ∈ l) : x.totalAmount ≤ maxAmount l := by
  cases l with
  | nil => exact absurd hx (List.not_mem_nil x)
  | cons m rest =>
      rcases List.mem_cons.mp hx with rfl | hx'
      · exact foldl_max_init_le rest x.totalAmount
      · exact mem_le_foldl_max rest m.totalAmount x hx'

/-- C9: on a non-empty monthly breakdown with nonnegative amounts and a
strictly positive series maximum, the bar-chart generator renders each
bar with height `totalAmount / maxAmount * barChartHeight` (an
available height of 230), and every such height lies in `[0, 230]`.
The strict positivity of the maximum is the precondition required
because the division carries no zero guard. -/
theorem generateBarChart_heights (l : List MonthlyBreakdown)
    (hne : l ≠ []) (hnn : ∀ m ∈ l, 0 ≤ m.totalAmount)
    (hpos : 0 < maxAmount l) :
    barChartHeight = 230 ∧
    generateBarChart l =
      some (l.map (fun m => m.totalAmount / maxAmount l * barChartHeight)) ∧
    ∀ q ∈ l.map (fun m => m.totalAmount / maxAmount l * barChartHeight),
      0 ≤ q ∧ q ≤ 230 := by
  have h230 : barChartHeight = 230 := by
    norm_num [barChartHeight, chartHeight, chartTopPadding]
  refine ⟨h230, ?_, ?_⟩
  · cases l with
    | nil => exact absurd rfl hne
    | cons m rest => rfl
  · intro q hq
    rcases List.mem_map.mp hq with ⟨m, hm, rfl⟩
    have hle : m.totalAmount ≤ maxAmount l := le_maxAmount l m hm
    have h0 : 0 ≤ m.totalAmount := hnn m hm
    have hdiv0 : 0 ≤ m.totalAmount / maxAmount l :=
      div_nonneg h0 (le_of_lt hpos)
    have hdiv1 : m.totalAmount / maxAmount l ≤ 1 :=
      (div_le_one hpos).mpr hle
    constructor
    · rw [h230]
      exact mul_nonneg hdiv0 (by norm_num)
    · rw [h230]
      calc m.totalAmount / maxAmount l * 230 ≤ 1 * 230 :=
            mul_le_mul_of_nonneg_right hdiv1 (by norm_num)
        _ = 230 := one_mul 230

/-- Witness for C9: a concrete two-month series with maximum 10 renders
heights 230 and 115, both within `[0, 230]`. -/
theorem generateBarChart_heights_witness :
    generateBarChart [⟨"2024-01", 10, 2⟩, ⟨"2024-02", 5, 1⟩] =
      some [230, 115] := by
  have h := (generateBarChart_heights
    [⟨"2024-01", 10, 2⟩, ⟨"2024-02", 5, 1⟩]
    (by decide)
    (by
      intro m hm
      rcases List.mem_cons.mp hm with rfl | hm'
      · norm_num
      · rcases List.mem_cons.mp hm' with rfl | hm''
        · norm_num
        · exact absurd hm'' (List.not_mem_nil m))
    (by norm_num [maxAmount])).2.1
  rw [h]
  norm_num [maxAmount, barChartHeight, chartHeight, chartTopPadding]

end ExpenseTracker
